import Mathlib

/-!
Shallow embedding of the wdanalysis reconciliation-and-validation engine
(`validate.go`, `wdlyzer.go`, `structs.go`).

The Go program ingests flattened Wikidata rows, validates each field,
accumulates deduplicated per-record diagnostics in a global ledger, and
runs a per-record grouping heuristic that merges validated rows into a
Format → Signature → ByteSequence tree, disabling a record's signature
data when the rows cannot be reconciled.

The external converter package (signature normalization and encoding
lookup) is out of scope for the repository, so it is modelled abstractly
as a `Converter` structure over which every definition that calls it is
parametrized.  The global mutable linting map is modelled by explicit
state passing of a `Linter` association list.  The single possible
runtime panic (the `wd.Signatures[idx-1]` access in `updateSequences`)
is modelled by an `Option` result, `none` standing for the panic.
-/

set_option autoImplicit false

namespace Wdanalysis

/-- Diagnostic codes, from the `linting` enumeration in `validate.go`. -/
inductive linting where
  | noLintingError  -- No linting error.
  | offWDE01        -- ErrNoOffset
  | offWDE02        -- ErrCannotParseOffset
  | offWDE03        -- ErrBlankNodeOffset
  | relWDE01        -- ErrEmptyStringRelativity
  | relWDE02        -- ErrUnknownRelativity
  | encWDE01        -- ErrNoEncoding
  | proWDE01        -- ErrNoProvenance
  | proWDE02        -- ErrNoDate
  | seqWDE01        -- ErrDuplicateSequence
  | heuWDE01        -- ErrNoHeuristic (bad heuristic, give up on the record)
  | heuWDE02        -- ErrCannotProcessSequence
deriving DecidableEq, Repr

open linting

/-- `nle` provides a nil for no lint errors (`const nle = noLintingError`). -/
def nle : linting := noLintingError

/-- The `critical` flag computed by `addLinting`'s switch statement.
Go `switch` cases do not fall through: the empty `case offWDE02:` and
`case relWDE02:` bodies leave `critical` at `false`, and only the
`case heuWDE01:` body sets it to `true`. -/
def criticalValue (value : linting) : Bool :=
  match value with
  | offWDE02 => false
  | relWDE02 => false
  | heuWDE01 => true
  | _ => false

/-- One stored diagnostic (`lintingResult` in `validate.go`). -/
structure lintingResult where
  URI : String
  Value : linting
  Critical : Bool
deriving DecidableEq, Repr

/-- The global `linter` map, `map[string]map[lintingResult]bool`, modelled as
an association list from URI to the set (duplicate-free list) of stored
results for that URI. -/
abbrev Linter := List (String × List lintingResult)

/-- Insert a result under a URI key: update the existing key's set if the key
is present (idempotently), otherwise add a fresh singleton entry.  This is the
map-write part of `addLinting`. -/
def insertLinting : Linter → String → lintingResult → Linter
  | [], uri, r => [(uri, [r])]
  | (k, rs) :: rest, uri, r =>
    if k = uri then (k, if r ∈ rs then rs else rs ++ [r]) :: rest
    else (k, rs) :: insertLinting rest uri r

/-- `addLinting` from `validate.go`: no-op for the no-error sentinel, else
idempotently insert `(uri, value, critical)` into that URI's diagnostic set. -/
def addLinting (linter : Linter) (uri : String) (value : linting) : Linter :=
  if value = nle then linter
  else insertLinting linter uri ⟨uri, value, criticalValue value⟩

/-- `handleLinting` from the assembler: guard that only real errors reach
`addLinting` (the guard is redundant with `addLinting`'s own check). -/
def handleLinting (linter : Linter) (uri : String) (lint : linting) : Linter :=
  if lint ≠ nle then addLinting linter uri lint else linter

/-- All diagnostics stored in the ledger, in key order. -/
def storedResults (linter : Linter) : List lintingResult :=
  (linter.map (fun p => p.2)).flatten

/-- `countLintingErrors` from `validate.go`: a fold over the map counting
records with at least one error, individual errors, and errors whose code is
`heuWDE01` or `heuWDE02`. -/
def countLintingErrors (linter : Linter) : Nat × Nat × Nat :=
  linter.foldl
    (fun counts p =>
      (counts.1 + 1,
       counts.2.1 + p.2.length,
       counts.2.2 + p.2.countP (fun res => decide (res.Value = heuWDE01) || decide (res.Value = heuWDE02))))
    (0, 0, 0)

/-- Modelled from the spec: the external converter's encoding categories
(`Hex / registry-GUID-style / PRONOM-regex-style / ASCII / unknown`); the Go
code uses the `converter` package's integer constants, of which it names
`UnknownEncoding`, `GUIDEncoding` and `PerlEncoding` (the PRONOM-regex-style
category). -/
inductive Encoding where
  | hexEncoding
  | asciiEncoding
  | guidEncoding
  | perlEncoding
  | unknownEncoding
deriving DecidableEq, Repr

open Encoding

/-- Modelled from the spec: the external encoding/normalization service
(`converter.LookupEncoding` and `converter.Parse`).  `lookupEncoding` resolves
an encoding label to a category (the unknown sentinel when unrecognized);
`parse` normalizes pattern text for a category, returning the text and an
optional error.  All definitions that call the converter are parametrized
over this structure. -/
structure Converter where
  lookupEncoding : String → Encoding
  parse : String → Encoding → String × Option String

/-- Wikidata sentinel for beginning-of-file relativity. -/
def relativeBOF : String := "http://www.wikidata.org/entity/Q35436009"

/-- Wikidata sentinel for end-of-file relativity. -/
def relativeEOF : String := "http://www.wikidata.org/entity/Q1148480"

/-- Modelled from the spec: the specific "transcription" provenance marker
(`trID` is referenced by `validateAndReturnDate` but defined outside the
given sources). -/
def trID : String := "transcription"

/-- `validateAndReturnProvenance` from `validate.go`. -/
def validateAndReturnProvenance (value : String) : String × linting :=
  if value = "" then (value, proWDE01)
  else (value, nle)

/-- `validateAndReturnDate` from `validate.go`. -/
def validateAndReturnDate (value : String) (provenance : String) : String × linting :=
  if value = "" ∧ provenance ≠ trID then (value, proWDE02)
  else (value, nle)

/-- `validateAndReturnEncoding` from `validate.go`, parametrized over the
external converter. -/
def validateAndReturnEncoding (c : Converter) (value : String) : Encoding × linting :=
  let encoding := c.lookupEncoding value
  if encoding = unknownEncoding then (encoding, encWDE01)
  else (encoding, nle)

/-- `validateAndReturnRelativity` from `validate.go`; the third component is
the Go `error` value. -/
def validateAndReturnRelativity (value : String) : String × linting × Option String :=
  if value = "" then (relativeBOF, relWDE01, none)
  else if value = relativeBOF then (relativeBOF, nle, none)
  else if value = relativeEOF then (relativeEOF, nle, none)
  else (value, relWDE02, some ("Received an unknown relativity: '" ++ value ++ "'"))

/-- `validateAndReturnOffset` from `validate.go`.  `String.toInt?` models
`strconv.Atoi`; on failure Go returns the zero value of the offset. -/
def validateAndReturnOffset (value : String) (nodeType : String) : Int × linting :=
  if value = "" then (0, nle)
  else if nodeType = "bnode" then (0, offWDE03)
  else
    match value.toInt? with
    | none => (0, offWDE02)
    | some offset => (offset, nle)

/-- `validateAndReturnSignature` from `validate.go`: normalize the raw text
through the converter; a conversion error yields `heuWDE02` and the raw
(partially parsed) value is still returned. -/
def validateAndReturnSignature (c : Converter) (value : String) (encoding : Encoding) :
    String × linting × Option String :=
  match c.parse value encoding with
  | (v, some e) => (v, heuWDE02, some e)
  | (v, none) => (v, nle, none)

/-- `ByteSequence` from `structs.go`. -/
structure ByteSequence where
  Signature : String    -- Signature byte sequence (normalized pattern text).
  Offset : Int          -- Offset used by the signature.
  Provenance : String   -- Provenance of the signature.
  Date : String         -- Date the signature was submitted.
  Encoding : Encoding   -- Signature encoding category.
  Relativity : String   -- Position relative to beginning or end of file.
deriving DecidableEq, Repr

/-- `Signature` from `structs.go`: an ordered list of byte sequences. -/
structure Signature where
  ByteSequences : List ByteSequence
deriving DecidableEq, Repr

/-- `Wikidata` from `structs.go`: one format record. -/
structure Wikidata where
  ID : String
  Name : String
  URI : String
  PRONOM : List String
  Extension : List String
  Mimetype : List String
  Signatures : List Signature
  disableSignatures : Bool
deriving DecidableEq, Repr

/-- One SPARQL result row (`map[string]spargo.Item`), restricted to the
fields the program reads; `offsetType` is the `Type` member of the offset
item (the node-type marker), all others are `Value` members. -/
structure Row where
  uri : String
  formatLabel : String
  puid : String
  extension : String
  mimetype : String
  sig : String
  offset : String
  offsetType : String
  encodingLabel : String
  relativityLabel : String
  date : String
  referenceLabel : String
deriving DecidableEq, Repr

/-- `strings.Split(s, "/")` over the character list: every `/` separates two
segments, so `"a//b"` yields `["a", "", "b"]` and `""` yields `[""]`.
Structural recursion keeps it kernel-evaluable. -/
def splitOnSlash : List Char → List (List Char)
  | [] => [[]]
  | c :: rest =>
    let r := splitOnSlash rest
    if c = '/' then [] :: r
    else (c :: r.headD []) :: r.tail

/-- `getID` from `wdlyzer.go`: the final path segment of the record URI,
`strings.Split(wikidataURI, "/")[len-1]` (the split never yields an empty
slice, so the default is unused). -/
def getID (wikidataURI : String) : String :=
  String.mk ((splitOnSlash wikidataURI.toList).getLastD [])

/-- `newByteSequence` from the assembler: run the six field validators over a
row, record every diagnostic against the row's URI, and build the byte
sequence from the normalized values. -/
def newByteSequence (c : Converter) (row : Row) (l : Linter) : ByteSequence × Linter :=
  let uri := row.uri
  let provenance := (validateAndReturnProvenance row.referenceLabel).1
  let l₁ := handleLinting l uri (validateAndReturnProvenance row.referenceLabel).2
  let date := (validateAndReturnDate row.date provenance).1
  let l₂ := handleLinting l₁ uri (validateAndReturnDate row.date provenance).2
  let relativity := (validateAndReturnRelativity row.relativityLabel).1
  let l₃ := handleLinting l₂ uri (validateAndReturnRelativity row.relativityLabel).2.1
  let offset := (validateAndReturnOffset row.offset row.offsetType).1
  let l₄ := handleLinting l₃ uri (validateAndReturnOffset row.offset row.offsetType).2
  let encoding := (validateAndReturnEncoding c row.encodingLabel).1
  let l₅ := handleLinting l₄ uri (validateAndReturnEncoding c row.encodingLabel).2
  let signature := (validateAndReturnSignature c row.sig encoding).1
  let l₆ := handleLinting l₅ uri (validateAndReturnSignature c row.sig encoding).2.1
  (⟨signature, offset, provenance, date, encoding, relativity⟩, l₆)

/-- `sequenceInSignatures` from `validate.go`: is the normalized text already
present, verbatim, in any byte sequence of any signature of the record? -/
def sequenceInSignatures (signatures : List Signature) (signature : String) : Bool :=
  signatures.any (fun sig => sig.ByteSequences.any (fun seq => signature == seq.Signature))

/-- `relativityAlreadyInSignatures` from `validate.go`. -/
def relativityAlreadyInSignatures (signatures : List Signature) (relativity : String) : Bool :=
  signatures.any (fun sig => sig.ByteSequences.any (fun seq => relativity == seq.Relativity))

/-- `checkEncodingCompatibility` from `validate.go`: scan the signature's
existing sequences and fail when an existing sequence is GUID-encoded and the
given encoding is not, or an existing sequence is Perl-(PRONOM-regex-)encoded
and the given encoding is not. -/
def checkEncodingCompatibility (signature : Signature) (givenEncoding : Encoding) : Bool :=
  signature.ByteSequences.all (fun seq =>
    !(decide ((seq.Encoding = guidEncoding ∧ givenEncoding ≠ guidEncoding) ∨
              (seq.Encoding = perlEncoding ∧ givenEncoding ≠ perlEncoding))))

/-- `updateSequences` from the assembler.  The result is `none` exactly when
the Go code would panic: in the fresh-relativity branch it reads
`wd.Signatures[len(wd.Signatures)-1]`, which is out of bounds when the
record has no Signature yet. -/
def updateSequences (c : Converter) (row : Row) (wd : Wikidata) (l : Linter) :
    Option (Wikidata × linting × Linter) :=
  let encoding := (validateAndReturnEncoding c row.encodingLabel).1
  let l₁ := handleLinting l wd.URI (validateAndReturnEncoding c row.encodingLabel).2
  let relativity := (validateAndReturnRelativity row.relativityLabel).1
  let l₂ := handleLinting l₁ wd.URI (validateAndReturnRelativity row.relativityLabel).2.1
  let signature := (validateAndReturnSignature c row.sig encoding).1
  let l₃ := handleLinting l₂ wd.URI (validateAndReturnSignature c row.sig encoding).2.1
  if sequenceInSignatures wd.Signatures signature = false then
    if relativityAlreadyInSignatures wd.Signatures relativity = true then
      if relativity = relativeBOF then
        -- Create a new record...
        let bs := newByteSequence c row l₃
        some ({ wd with Signatures := wd.Signatures ++ [⟨[bs.1]⟩] }, nle, bs.2)
      else
        -- We've a bad heuristic and can't piece together a valid signature.
        some (wd, heuWDE01, l₃)
    else
      match wd.Signatures.getLast? with
      | none => none  -- Go: index out of range at wd.Signatures[idx-1].
      | some lastSig =>
        if checkEncodingCompatibility lastSig encoding = true then
          -- Append to record...
          let bs := newByteSequence c row l₃
          some ({ wd with
                   Signatures := wd.Signatures.dropLast ++
                     [⟨lastSig.ByteSequences ++ [bs.1]⟩] }, nle, bs.2)
        else
          -- We've a bad heuristic and can't piece together a valid signature.
          some (wd, heuWDE01, l₃)
  else
    -- Sequence already in signatures, no need to process, no errors of note.
    some (wd, nle, l₃)

/-- `preProcessedSequence` from `validate.go`: the transient unvalidated
tuple examined by the pre-flight check. -/
structure preProcessedSequence where
  signature : String
  offset : String
  relativity : String
  encoding : String
deriving DecidableEq, Repr

/-- `preValidateSignatures` from `validate.go`.  The Go loop returns `false`
on the first row failing relativity or signature validation (before later
rows are appended to the cross-sectional slices, which is equivalent to the
`any` guard here since those slices are then discarded); otherwise the
nested acceptance conditions run over the full slices. -/
def preValidateSignatures (c : Converter) (preProcessedSequences : List preProcessedSequence) : Bool :=
  if preProcessedSequences.any (fun v =>
      (validateAndReturnRelativity v.relativity).2.2.isSome ||
      (validateAndReturnSignature c v.signature (c.lookupEncoding v.encoding)).2.2.isSome)
  then false
  else
    let encoding := preProcessedSequences.map (fun v => v.encoding)
    let relativity :=
      (preProcessedSequences.filter (fun v => v.relativity ≠ "")).map (fun v => v.relativity)
    let offset := preProcessedSequences.map (fun v => v.offset)
    let signature := preProcessedSequences.map (fun v => v.signature)
    if preProcessedSequences.length = 2 ∧
       (relativity.dedup.length = 2 ∨ signature.dedup.length = 2) then true
    else if preProcessedSequences.length > 2 ∧
            encoding.dedup.length ≠ 1 ∧ encoding.dedup.length ≠ 0 then false
    else if preProcessedSequences.length > 2 ∧
            relativity.dedup.length ≠ 1 ∧ relativity.dedup.length ≠ 0 then false
    else if signature.length = encoding.length ∧ offset.length = signature.length ∧
            (relativity.length = 0 ∨ relativity.length = signature.length) then true
    else false

/-- The raw tuple built by `addSignatures` for one signature-bearing row. -/
def tupleOfRow (row : Row) : preProcessedSequence :=
  ⟨row.sig, row.offset, row.relativityLabel, row.encodingLabel⟩

/-- One iteration of the tuple-collection loop of `addSignatures`: for a row
of the given identifier that carries signature text, append its tuple only
when it is not already present (the empty-list special case appends first
and then finds the tuple present, so no duplicate arises there either). -/
def preProcessStep (id : String) (acc : List preProcessedSequence) (row : Row) :
    List preProcessedSequence :=
  if getID row.uri = id then
    if row.sig ≠ "" then
      let preProcessed := tupleOfRow row
      let acc₁ := if acc.length = 0 then acc ++ [preProcessed] else acc
      if preProcessed ∈ acc₁ then acc₁ else acc₁ ++ [preProcessed]
    else acc
  else acc

/-- The tuple-collection loop of `addSignatures` over the whole row list. -/
def preProcessList (wdRecords : List Row) (id : String) : List preProcessedSequence :=
  wdRecords.foldl (preProcessStep id) []

/-- `addSignatures` from `validate.go`: run the pre-flight check when at
least one signature-bearing tuple was collected, else `false`. -/
def addSignatures (c : Converter) (wdRecords : List Row) (id : String) : Bool :=
  let preProcessedSequences := preProcessList wdRecords id
  if preProcessedSequences.length > 0 then preValidateSignatures c preProcessedSequences
  else false

/-- `contains` from `wdlyzer.go`. -/
def contains (items : List String) (item : String) : Bool :=
  items.any (fun i => i == item)

/-- `newRecord` from `wdlyzer.go`: build the record from the first row; when
the row carries signature text and pre-processing rejected the record, record
the bad-heuristic diagnostic and disable signatures before any Signature is
created, else seed the first Signature with the row's byte sequence. -/
def newRecord (c : Converter) (row : Row) (addSigs : Bool) (l : Linter) : Wikidata × Linter :=
  let wd : Wikidata :=
    { ID := getID row.uri
      Name := row.formatLabel
      URI := row.uri
      PRONOM := [row.puid]
      Extension := [row.extension]
      Mimetype := [row.mimetype]
      Signatures := []
      disableSignatures := false }
  if row.sig ≠ "" then
    if addSigs = false then
      ({ wd with disableSignatures := true }, addLinting l wd.URI heuWDE01)
    else
      let bs := newByteSequence c row l
      ({ wd with Signatures := [⟨[bs.1]⟩] }, bs.2)
  else (wd, l)

/-- The classification-list phase of `updateRecord` (`wdlyzer.go` lines
135-143): append the row's PUID, extension and MIME type to their lists
when not already present. -/
def updateClassifications (row : Row) (wd : Wikidata) : Wikidata :=
  let wd₁ := if contains wd.PRONOM row.puid = false
             then { wd with PRONOM := wd.PRONOM ++ [row.puid] } else wd
  let wd₂ := if contains wd₁.Extension row.extension = false
             then { wd₁ with Extension := wd₁.Extension ++ [row.extension] } else wd₁
  if contains wd₂.Mimetype row.mimetype = false
  then { wd₂ with Mimetype := wd₂.Mimetype ++ [row.mimetype] } else wd₂

/-- `updateRecord` from `wdlyzer.go`: update the classification lists
unconditionally; for a signature-bearing row of a non-disabled record run the
grouping heuristic, and on a grouping error clear the whole Signature list,
set the disabled flag and record the diagnostic.  `none` propagates the
grouping step's potential panic. -/
def updateRecord (c : Converter) (row : Row) (wd : Wikidata) (l : Linter) :
    Option (Wikidata × Linter) :=
  let wd₃ := updateClassifications row wd
  if row.sig ≠ "" then
    if wd₃.disableSignatures = false then
      match updateSequences c row wd₃ l with
      | none => none
      | some (wd₄, lintingErr, l') =>
        if lintingErr ≠ nle then
          some ({ wd₄ with Signatures := [], disableSignatures := true },
                addLinting l' wd₄.URI lintingErr)
        else some (wd₄, l')
    else some (wd₃, l)
  else some (wd₃, l)

/-- One record's life: `newRecord` on its first row, `updateRecord` on every
later row, as the `main` loop drives it for one identifier. -/
def runRecord (c : Converter) (first : Row) (addSigs : Bool) (rows : List Row) (l : Linter) :
    Option (Wikidata × Linter) :=
  rows.foldl
    (fun acc row => acc.bind (fun p => updateRecord c row p.1 p.2))
    (some (newRecord c first addSigs l))

/-! ### Concrete instances for witnesses and counterexamples

`hexConverter` is one concrete behaviour of the external converter: every
label resolves to the Hex category and normalization succeeds, returning the
text unchanged.  The real converter behaves this way on well-formed hex
input, which is all the concrete examples use. -/

/-- A concrete converter: labels resolve to Hex, normalization succeeds. -/
def hexConverter : Converter :=
  { lookupEncoding := fun _ => hexEncoding
    parse := fun s _ => (s, none) }

/-! ### Statement helpers

Projections of the validator pipeline as `updateSequences` runs it, used to
phrase hypotheses and conclusions about the grouping step. -/

/-- The encoding category `updateSequences` computes for a row. -/
def normEncoding (c : Converter) (row : Row) : Encoding :=
  (validateAndReturnEncoding c row.encodingLabel).1

/-- The relativity value `updateSequences` computes for a row. -/
def normRelativity (row : Row) : String :=
  (validateAndReturnRelativity row.relativityLabel).1

/-- The normalized signature text `updateSequences` computes for a row. -/
def normSignatureText (c : Converter) (row : Row) : String :=
  (validateAndReturnSignature c row.sig (normEncoding c row)).1

/-- The ledger after the three pre-processing lints of `updateSequences`
(encoding, relativity, signature), before any grouping decision. -/
def preLintLinter (c : Converter) (row : Row) (wd : Wikidata) (l : Linter) : Linter :=
  handleLinting
    (handleLinting
      (handleLinting l wd.URI (validateAndReturnEncoding c row.encodingLabel).2)
      wd.URI (validateAndReturnRelativity row.relativityLabel).2.1)
    wd.URI (validateAndReturnSignature c row.sig (normEncoding c row)).2.1

/-- The symmetric encoding-incompatibility rule as the spec words it: a pair
of encodings is incompatible when exactly one member is the
registry-GUID-style encoding, or exactly one member is the
PRONOM-regex-style encoding.  Stated for comparison with the code's
`checkEncodingCompatibility`, which is not symmetric. -/
def specIncompatiblePair (e₁ e₂ : Encoding) : Bool :=
  (decide (e₁ = guidEncoding) != decide (e₂ = guidEncoding)) ||
  (decide (e₁ = perlEncoding) != decide (e₂ = perlEncoding))

/-- A ledger state reachable by a sequence of `addLinting` calls from the
empty ledger (the only way the program ever builds the `linter` map). -/
def runLinter (calls : List (String × linting)) : Linter :=
  calls.foldl (fun acc call => addLinting acc call.1 call.2) []

/-- Well-formedness of the ledger model, matching what the Go
`map[string]map[lintingResult]bool` guarantees by construction: URI keys are
distinct, every key holds a non-empty duplicate-free set of results, and each
result carries its own key as URI. -/
def WFLinter (l : Linter) : Prop :=
  (l.map Prod.fst).Nodup ∧
  ∀ p ∈ l, p.2 ≠ [] ∧ p.2.Nodup ∧ ∀ r ∈ p.2, r.URI = p.1

/-- The disabled-implies-empty record invariant. -/
def Inv (wd : Wikidata) : Prop :=
  wd.disableSignatures = true → wd.Signatures = []

/-! ### Concrete fixtures -/

/-- A concrete record URI. -/
def uriQ1 : String := "http://www.wikidata.org/entity/Q1"

/-- A row whose only peculiarity is end-of-file relativity together with a
blank-node offset marker. -/
def rowEOF : Row :=
  { uri := uriQ1, formatLabel := "f", puid := "p", extension := "e",
    mimetype := "m", sig := "AB", offset := "b0", offsetType := "bnode",
    encodingLabel := "Hexadecimal", relativityLabel := relativeEOF,
    date := "d", referenceLabel := "r" }

/-- A row of the record that carries no signature text. -/
def rowNoSig : Row :=
  { uri := uriQ1, formatLabel := "f", puid := "p", extension := "e",
    mimetype := "m", sig := "", offset := "", offsetType := "uri",
    encodingLabel := "Hexadecimal", relativityLabel := "",
    date := "d", referenceLabel := "r" }

/-- A clean signature-bearing row with beginning-of-file relativity. -/
def rowSig : Row :=
  { rowNoSig with sig := "CAFE", relativityLabel := relativeBOF }

/-- A fresh-signature row with end-of-file relativity. -/
def rowEOF2 : Row :=
  { rowSig with sig := "BB", relativityLabel := relativeEOF }

/-- A row whose signature text duplicates `wdBOF`'s stored sequence but whose
relativity label is blank. -/
def rowDup : Row :=
  { rowSig with sig := "AB", relativityLabel := "" }

/-- A fully clean row duplicating `wdBOF`'s stored sequence. -/
def rowDupClean : Row :=
  { rowSig with sig := "AB" }

/-- A record already holding one end-of-file sequence. -/
def wdEOF : Wikidata :=
  { ID := "Q1", Name := "f", URI := uriQ1, PRONOM := ["p"], Extension := ["e"],
    Mimetype := ["m"],
    Signatures := [⟨[⟨"AA", 0, "r", "d", hexEncoding, relativeEOF⟩]⟩],
    disableSignatures := false }

/-- A record already holding one beginning-of-file sequence `"AB"`. -/
def wdBOF : Wikidata :=
  { wdEOF with Signatures := [⟨[⟨"AB", 0, "r", "d", hexEncoding, relativeBOF⟩]⟩] }

/-- The disabled record `newRecord` produces for `rowSig` when pre-processing
rejected the record. -/
def wdDis : Wikidata :=
  { ID := "Q1", Name := "f", URI := uriQ1, PRONOM := ["p"], Extension := ["e"],
    Mimetype := ["m"], Signatures := [], disableSignatures := true }

/-- The ledger after the bad-heuristic diagnostic of `wdDis`. -/
def lDis : Linter := [(uriQ1, [⟨uriQ1, heuWDE01, true⟩])]

/-- A signature holding a single hex-encoded sequence. -/
def sigHexOnly : Signature := ⟨[⟨"AA", 0, "", "", hexEncoding, relativeBOF⟩]⟩

/-- Pre-flight tuple with a blank relativity. -/
def tA : preProcessedSequence := ⟨"A", "0", "", ""⟩

/-- Pre-flight tuple with beginning-of-file relativity and a distinct
signature text. -/
def tB : preProcessedSequence := ⟨"B", "0", relativeBOF, ""⟩

/-! ## Theorems -/

/-- C6: fatality of the stored diagnostics.  Evaluating `addLinting` at each
code shows that the unknown-relativity, cannot-parse-offset,
blank-node-offset and cannot-process-sequence codes are all stored with
`Critical := false` — only the bad-heuristic code `heuWDE01` is stored
critical (in the Go switch the empty `case offWDE02:` / `case relWDE02:`
bodies do not fall through, and `offWDE03` / `heuWDE02` are absent from the
switch), contradicting the claim that these four codes are stored fatal.
The non-fatal half of the claim (missing provenance / date / encoding /
relativity) does hold. -/
theorem c6_criticality_of_stored_codes :
    addLinting [] "u" relWDE02 = [("u", [⟨"u", relWDE02, false⟩])] ∧
    addLinting [] "u" offWDE02 = [("u", [⟨"u", offWDE02, false⟩])] ∧
    addLinting [] "u" offWDE03 = [("u", [⟨"u", offWDE03, false⟩])] ∧
    addLinting [] "u" heuWDE02 = [("u", [⟨"u", heuWDE02, false⟩])] ∧
    addLinting [] "u" heuWDE01 = [("u", [⟨"u", heuWDE01, true⟩])] ∧
    addLinting [] "u" proWDE01 = [("u", [⟨"u", proWDE01, false⟩])] ∧
    addLinting [] "u" proWDE02 = [("u", [⟨"u", proWDE02, false⟩])] ∧
    addLinting [] "u" encWDE01 = [("u", [⟨"u", encWDE01, false⟩])] ∧
    addLinting [] "u" relWDE01 = [("u", [⟨"u", relWDE01, false⟩])] := by
  decide

/-- C9: the in-bounds claim fails.  A record whose first row carries no
signature text is created with an empty Signature list and the disabled flag
still false; a later signature-bearing row with a fresh signature and a
fresh relativity then reaches `wd.Signatures[len(wd.Signatures)-1]` with an
empty list, the out-of-bounds read modelled by the `none` result. -/
theorem c9_updateSequences_out_of_bounds :
    (newRecord hexConverter rowNoSig true []).1.Signatures = [] ∧
    (newRecord hexConverter rowNoSig true []).1.disableSignatures = false ∧
    updateSequences hexConverter rowSig (newRecord hexConverter rowNoSig true []).1 [] = none ∧
    runRecord hexConverter rowNoSig true [rowSig] [] = none := by
  refine ⟨rfl, rfl, rfl, rfl⟩

/-- C2 counterexample: the claimed symmetric incompatibility rule fails on
the code.  For a signature holding a single hex-encoded sequence and a new
GUID-encoded sequence, exactly one member of the pair is GUID-encoded, so
the claim requires the check to return `false`; the code returns `true`
(its test only fires when the existing sequence is the GUID/Perl one). -/
theorem c2_counterexample :
    ¬ (checkEncodingCompatibility sigHexOnly guidEncoding = false ↔
       (sigHexOnly.ByteSequences.any
         (fun bs => specIncompatiblePair bs.Encoding guidEncoding)) = true) := by
  decide

/-- C3 counterexample: an accepted two-row input violating relativity
parity.  `tA` has a blank relativity, `tB` a beginning-of-file one; the
signature texts differ, so the two-row rule accepts, yet the count of
non-blank relativities is 1, neither zero nor the row count 2. -/
theorem c3_counterexample :
    preValidateSignatures hexConverter [tA, tB] = true ∧
    (([tA, tB].filter (fun v => v.relativity ≠ "")).map (fun v => v.relativity)).length = 1 ∧
    [tA, tB].length = 2 := by
  refine ⟨by decide, by decide, rfl⟩

/-- C5 counterexample: a duplicate row that does record a diagnostic.  The
row's normalized signature text `"AB"` already occurs in the record, and the
grouping step leaves the record unchanged as claimed — but its relativity
label is blank, so the pre-processing validators record the
missing-relativity diagnostic `relWDE01`, refuting "records no
diagnostic". -/
theorem c5_counterexample :
    sequenceInSignatures wdBOF.Signatures (normSignatureText hexConverter rowDup) = true ∧
    updateSequences hexConverter rowDup wdBOF [] =
      some (wdBOF, nle, [(uriQ1, [⟨uriQ1, relWDE01, false⟩])]) ∧
    ([(uriQ1, [⟨uriQ1, relWDE01, false⟩])] : Linter) ≠ [] := by
  refine ⟨by decide, by decide, by decide⟩

/-- C7 counterexample: the pre-flight check does not reject the boundary
record.  For the single signature-bearing row with end-of-file relativity
and a blank-node offset marker (signature normalizable), `addSignatures`
collects one tuple and the pre-flight check accepts it — it never examines
offsets — contradicting the claimed rejection. -/
theorem c7_counterexample :
    preValidateSignatures hexConverter [tupleOfRow rowEOF] = true ∧
    addSignatures hexConverter [rowEOF] "Q1" = true := by
  refine ⟨by decide, by decide⟩

/-- C8 counterexample: the third summary count is not specific to the
bad-heuristic code.  A ledger holding one cannot-process-sequence
(`heuWDE02`) diagnostic yields third count 1 although no stored diagnostic
carries the heuristic-give-up code `heuWDE01`. -/
theorem c8_counterexample :
    countLintingErrors (addLinting [] "u" heuWDE02) = (1, 1, 1) ∧
    (storedResults (addLinting [] "u" heuWDE02)).countP
      (fun r => decide (r.Value = heuWDE01)) = 0 := by
  refine ⟨by decide, by decide⟩

/-- C2 amended: the compatibility check returns `false` iff some existing
sequence's encoding is the registry-GUID-style one while the new encoding is
not, or some existing sequence's encoding is the PRONOM-regex-style one
while the new encoding is not.  The rule is asymmetric: it only fires on the
existing sequence's side, so a new hex-encoded sequence is incompatible with
an existing GUID-encoded one while a new GUID-encoded sequence is compatible
with an existing hex-encoded one. -/
theorem c2_amended (s : Signature) (e : Encoding) :
    checkEncodingCompatibility s e = false ↔
    ∃ bs ∈ s.ByteSequences,
      (bs.Encoding = guidEncoding ∧ e ≠ guidEncoding) ∨
      (bs.Encoding = perlEncoding ∧ e ≠ perlEncoding) := by
  constructor
  · intro h
    simp only [checkEncodingCompatibility] at h
    rw [← Bool.not_eq_true, List.all_eq_true] at h
    push_neg at h
    obtain ⟨bs, hmem, hb⟩ := h
    refine ⟨bs, hmem, ?_⟩
    revert hb
    by_cases h₁ : bs.Encoding = guidEncoding <;>
      by_cases h₂ : e = guidEncoding <;>
      by_cases h₃ : bs.Encoding = perlEncoding <;>
      by_cases h₄ : e = perlEncoding <;>
      simp [h₁, h₂, h₃, h₄]
  · intro ⟨bs, hmem, hb⟩
    simp only [checkEncodingCompatibility]
    rw [← Bool.not_eq_true, List.all_eq_true]
    push_neg
    refine ⟨bs, hmem, ?_⟩
    revert hb
    by_cases h₁ : bs.Encoding = guidEncoding <;>
      by_cases h₂ : e = guidEncoding <;>
      by_cases h₃ : bs.Encoding = perlEncoding <;>
      by_cases h₄ : e = perlEncoding <;>
      simp [h₁, h₂, h₃, h₄]

/-- C1: the grouping heuristic on a non-duplicate row whose relativity is
already present.  If the row's relativity is the beginning-of-file sentinel,
a brand-new Signature holding exactly the row's byte sequence is appended
and the no-error code returned; for any other relativity the record is left
unchanged and the bad-heuristic code `heuWDE01` is returned (upon which
`updateRecord` disables the record). -/
theorem c1_grouping_on_seen_relativity (c : Converter) (row : Row) (wd : Wikidata) (l : Linter)
    (hdup : sequenceInSignatures wd.Signatures (normSignatureText c row) = false)
    (hrel : relativityAlreadyInSignatures wd.Signatures (normRelativity row) = true) :
    (normRelativity row = relativeBOF →
      updateSequences c row wd l =
        some ({ wd with Signatures :=
                  wd.Signatures ++ [⟨[(newByteSequence c row (preLintLinter c row wd l)).1]⟩] },
              nle, (newByteSequence c row (preLintLinter c row wd l)).2)) ∧
    (normRelativity row ≠ relativeBOF →
      updateSequences c row wd l = some (wd, heuWDE01, preLintLinter c row wd l)) := by
  unfold normSignatureText normEncoding at hdup
  unfold normRelativity at hrel
  constructor
  · intro hbof
    unfold normRelativity at hbof
    rw [hbof] at hrel
    simp [updateSequences, preLintLinter, normEncoding, hdup, hrel, hbof]
  · intro hbof
    unfold normRelativity at hbof
    simp [updateSequences, preLintLinter, normEncoding, hdup, hrel, hbof]

/-- C1 witness: a record holding one end-of-file sequence receives a fresh
end-of-file row with new signature text; the theorem's hypotheses hold and
the grouping step returns the bad-heuristic code with the record
unchanged. -/
theorem c1_grouping_on_seen_relativity_witness :
    sequenceInSignatures wdEOF.Signatures (normSignatureText hexConverter rowEOF2) = false ∧
    relativityAlreadyInSignatures wdEOF.Signatures (normRelativity rowEOF2) = true ∧
    updateSequences hexConverter rowEOF2 wdEOF [] =
      some (wdEOF, heuWDE01, preLintLinter hexConverter rowEOF2 wdEOF []) :=
  ⟨by decide, by decide,
    (c1_grouping_on_seen_relativity hexConverter rowEOF2 wdEOF []
      (by decide) (by decide)).2 (by decide)⟩

/-- C5 amended: duplicate-sequence idempotence of the record.  A row whose
normalized signature text already occurs verbatim in the record leaves the
record completely unchanged and returns the no-error code; the ledger
receives only the row's own field-validation notices computed before the
duplicate check, so when the row's encoding, relativity and signature all
validate cleanly no diagnostic at all is recorded. -/
theorem c5_duplicate_idempotent (c : Converter) (row : Row) (wd : Wikidata) (l : Linter)
    (hdup : sequenceInSignatures wd.Signatures (normSignatureText c row) = true) :
    updateSequences c row wd l = some (wd, nle, preLintLinter c row wd l) ∧
    ((validateAndReturnEncoding c row.encodingLabel).2 = nle →
     (validateAndReturnRelativity row.relativityLabel).2.1 = nle →
     (validateAndReturnSignature c row.sig (normEncoding c row)).2.1 = nle →
     updateSequences c row wd l = some (wd, nle, l)) := by
  unfold normSignatureText normEncoding at hdup
  constructor
  · simp [updateSequences, preLintLinter, normEncoding, hdup]
  · intro h₁ h₂ h₃
    unfold normEncoding at h₃
    simp [updateSequences, preLintLinter, normEncoding, hdup, h₁, h₂, h₃, handleLinting]

/-- C5 witness: resubmitting the clean row whose normalized text `"AB"` is
already stored changes neither the record nor the ledger. -/
theorem c5_duplicate_idempotent_witness :
    sequenceInSignatures wdBOF.Signatures (normSignatureText hexConverter rowDupClean) = true ∧
    updateSequences hexConverter rowDupClean wdBOF [] = some (wdBOF, nle, []) :=
  ⟨by decide,
    (c5_duplicate_idempotent hexConverter rowDupClean wdBOF [] (by decide)).2
      (by decide) (by decide) (by decide)⟩

/-- The classification phase never touches the Signature list. -/
theorem updateClassifications_Signatures (row : Row) (wd : Wikidata) :
    (updateClassifications row wd).Signatures = wd.Signatures := by
  simp only [updateClassifications]
  split <;> split <;> split <;> rfl

/-- The classification phase never touches the disabled flag. -/
theorem updateClassifications_disableSignatures (row : Row) (wd : Wikidata) :
    (updateClassifications row wd).disableSignatures = wd.disableSignatures := by
  simp only [updateClassifications]
  split <;> split <;> split <;> rfl

/-- The classification phase never touches the URI. -/
theorem updateClassifications_URI (row : Row) (wd : Wikidata) :
    (updateClassifications row wd).URI = wd.URI := by
  simp only [updateClassifications]
  split <;> split <;> split <;> rfl

/-- The grouping step never changes the disabled flag. -/
theorem updateSequences_disableSignatures (c : Converter) (row : Row) (wd : Wikidata)
    (l : Linter) (wd' : Wikidata) (lint : linting) (l' : Linter)
    (h : updateSequences c row wd l = some (wd', lint, l')) :
    wd'.disableSignatures = wd.disableSignatures := by
  simp only [updateSequences] at h
  repeat' split at h
  all_goals try (exact Option.noConfusion h)
  all_goals simp only [Option.some.injEq, Prod.mk.injEq] at h
  all_goals obtain ⟨h₁, h₂, h₃⟩ := h
  all_goals subst h₁
  all_goals rfl

/-- `newRecord` establishes the disabled-implies-empty invariant. -/
theorem inv_newRecord (c : Converter) (row : Row) (addSigs : Bool) (l : Linter) :
    Inv (newRecord c row addSigs l).1 := by
  unfold Inv
  simp only [newRecord]
  split
  · split
    · intro _; rfl
    · simp
  · simp

/-- `updateRecord` preserves the disabled-implies-empty invariant. -/
theorem inv_updateRecord (c : Converter) (row : Row) (wd : Wikidata) (l : Linter)
    (wd' : Wikidata) (l' : Linter) (hInv : Inv wd)
    (h : updateRecord c row wd l = some (wd', l')) : Inv wd' := by
  simp only [updateRecord] at h
  split at h
  case isTrue hsig =>
    split at h
    case isTrue hflag =>
      -- signature-bearing row, record not disabled: the grouping step ran.
      split at h
      case h_1 heq => exact absurd h (by simp)
      case h_2 wd₄ lintErr l₃ heq =>
        split at h
        case isTrue hlerr =>
          -- grouping error: list cleared and flag set together.
          simp only [Option.some.injEq, Prod.mk.injEq] at h
          obtain ⟨h₁, -⟩ := h
          subst h₁
          intro _
          rfl
        case isFalse hlerr =>
          -- clean grouping step: the flag stays false.
          simp only [Option.some.injEq, Prod.mk.injEq] at h
          obtain ⟨h₁, -⟩ := h
          subst h₁
          intro hdis
          have hf := updateSequences_disableSignatures c row (updateClassifications row wd) l
            wd₄ lintErr l₃ heq
          rw [hdis, hflag] at hf
          exact absurd hf (by simp)
    case isFalse hflag =>
      -- record already disabled: only classification lists change.
      simp only [Option.some.injEq, Prod.mk.injEq] at h
      obtain ⟨h₁, -⟩ := h
      subst h₁
      intro hdis
      rw [updateClassifications_Signatures]
      rw [updateClassifications_disableSignatures] at hdis
      exact hInv hdis
  case isFalse hsig =>
    -- row without signature text: only classification lists change.
    simp only [Option.some.injEq, Prod.mk.injEq] at h
    obtain ⟨h₁, -⟩ := h
    subst h₁
    intro hdis
    rw [updateClassifications_Signatures]
    rw [updateClassifications_disableSignatures] at hdis
    exact hInv hdis

/-- The invariant holds along any fold of `updateRecord` steps. -/
theorem inv_foldl (c : Converter) (rows : List Row) :
    ∀ (init : Option (Wikidata × Linter)),
      (∀ wd l, init = some (wd, l) → Inv wd) →
      ∀ wd l,
        rows.foldl (fun acc row => acc.bind (fun p => updateRecord c row p.1 p.2)) init =
          some (wd, l) → Inv wd := by
  induction rows with
  | nil => intro init hinit wd l h; exact hinit wd l h
  | cons r rs ih =>
    intro init hinit wd l h
    refine ih _ ?_ wd l h
    intro wd' l' hstep
    cases hi : init with
    | none => rw [hi] at hstep; exact absurd hstep (by simp)
    | some p =>
      rw [hi] at hstep
      simp only [Option.bind_some] at hstep
      exact inv_updateRecord c r p.1 p.2 wd' l' (hinit p.1 p.2 hi) hstep

/-- C4: disabled-implies-empty.  Along every `newRecord`/`updateRecord` run
(panic-free, hence every observable state), a record whose disabled flag is
set has an empty Signature list — the disabling step clears the whole list
atomically; and once disabled, a later row changes only the classification
lists: the Signature list, the flag and the ledger are untouched. -/
theorem c4_disabled_implies_empty :
    (∀ (c : Converter) (first : Row) (addSigs : Bool) (rows : List Row) (l : Linter)
       (wd : Wikidata) (l' : Linter),
       runRecord c first addSigs rows l = some (wd, l') →
       wd.disableSignatures = true → wd.Signatures = []) ∧
    (∀ (c : Converter) (row : Row) (wd : Wikidata) (l : Linter),
       wd.disableSignatures = true →
       updateRecord c row wd l = some (updateClassifications row wd, l) ∧
       (updateClassifications row wd).Signatures = wd.Signatures ∧
       (updateClassifications row wd).disableSignatures = true) := by
  constructor
  · intro c first addSigs rows l wd l' hrun
    refine inv_foldl c rows _ ?_ wd l' hrun
    intro wd₀ l₀ h₀
    rw [Option.some.injEq] at h₀
    have hn := inv_newRecord c first addSigs l
    rw [h₀] at hn
    exact hn
  · intro c row wd l hdis
    have hflag : ¬ (updateClassifications row wd).disableSignatures = false := by
      rw [updateClassifications_disableSignatures, hdis]
      simp
    refine ⟨?_, updateClassifications_Signatures row wd, ?_⟩
    · simp only [updateRecord]
      split <;> simp [hflag]
    · rw [updateClassifications_disableSignatures, hdis]

/-- C4 witness: a record created disabled (pre-flight rejection) has the
empty Signature list the theorem demands. -/
theorem c4_disabled_implies_empty_witness :
    runRecord hexConverter rowSig false [] [] = some (wdDis, lDis) ∧
    wdDis.disableSignatures = true ∧ wdDis.Signatures = [] :=
  ⟨by decide, by decide,
    c4_disabled_implies_empty.1 hexConverter rowSig false [] [] wdDis lDis
      (by decide) (by decide)⟩

/-- C3 amended: structural parity on accepted inputs.  Any accepted input
has raw-signature, encoding and offset counts equal to the row count (the
cross-sectional slices are built one entry per row), and the count of
non-blank relativities is zero or the row count — except that an input of
exactly 2 rows may be accepted by the early two-row rule with exactly one
non-blank relativity, which can only happen through its
two-distinct-signatures clause.  (The original claim asserts relativity
parity for the 2-row case as well, which the code does not enforce.) -/
theorem c3_structural_parity (c : Converter) (ps : List preProcessedSequence)
    (h : preValidateSignatures c ps = true) :
    (ps.map (fun v => v.signature)).length = ps.length ∧
    (ps.map (fun v => v.encoding)).length = ps.length ∧
    (ps.map (fun v => v.offset)).length = ps.length ∧
    (((ps.filter (fun v => v.relativity ≠ "")).map (fun v => v.relativity)).length = 0 ∨
     ((ps.filter (fun v => v.relativity ≠ "")).map (fun v => v.relativity)).length = ps.length ∨
     (ps.length = 2 ∧
      ((ps.filter (fun v => v.relativity ≠ "")).map (fun v => v.relativity)).length = 1 ∧
      (ps.map (fun v => v.signature)).dedup.length = 2)) := by
  refine ⟨List.length_map _ _, List.length_map _ _, List.length_map _ _, ?_⟩
  have hle : ((ps.filter (fun v => v.relativity ≠ "")).map (fun v => v.relativity)).length ≤
      ps.length := by
    rw [List.length_map]
    exact List.length_filter_le _ _
  have hded : (((ps.filter (fun v => v.relativity ≠ "")).map (fun v => v.relativity)).dedup).length ≤
      ((ps.filter (fun v => v.relativity ≠ "")).map (fun v => v.relativity)).length :=
    (List.dedup_sublist _).length_le
  simp only [preValidateSignatures] at h
  split at h
  · exact absurd h (by simp)
  · split at h
    case isTrue h2 =>
      rcases h2.2 with hrd | hsd
      · right; left
        omega
      · have : ((ps.filter (fun v => v.relativity ≠ "")).map (fun v => v.relativity)).length = 0 ∨
            ((ps.filter (fun v => v.relativity ≠ "")).map (fun v => v.relativity)).length = 1 ∨
            ((ps.filter (fun v => v.relativity ≠ "")).map (fun v => v.relativity)).length = 2 := by
          omega
        rcases this with h0 | h1 | hfull
        · exact Or.inl h0
        · exact Or.inr (Or.inr ⟨h2.1, h1, hsd⟩)
        · right; left; omega
    case isFalse h2 =>
      split at h
      · exact absurd h (by simp)
      · split at h
        · exact absurd h (by simp)
        · split at h
          case isTrue hp =>
            rcases hp.2.2 with h0 | hfull
            · exact Or.inl h0
            · right; left
              rw [hfull, List.length_map]
          case isFalse hp => exact absurd h (by simp)

/-- C3 witness: a single accepted tuple with a non-blank relativity
satisfies the amended relativity-parity disjunction. -/
theorem c3_structural_parity_witness :
    preValidateSignatures hexConverter [tB] = true ∧
    ((([tB].filter (fun v => v.relativity ≠ "")).map (fun v => v.relativity)).length = 0 ∨
     (([tB].filter (fun v => v.relativity ≠ "")).map (fun v => v.relativity)).length = [tB].length ∨
     ([tB].length = 2 ∧
      (([tB].filter (fun v => v.relativity ≠ "")).map (fun v => v.relativity)).length = 1 ∧
      ([tB].map (fun v => v.signature)).dedup.length = 2)) :=
  ⟨by decide, (c3_structural_parity hexConverter [tB] (by decide)).2.2.2⟩

/-- Unfolding `storedResults` over the head entry. -/
theorem storedResults_cons (k : String) (rs : List lintingResult) (rest : Linter) :
    storedResults ((k, rs) :: rest) = rs ++ storedResults rest := by
  simp [storedResults]

/-- Inserting a result preserves every stored diagnostic. -/
theorem mem_storedResults_insertLinting (l : Linter) (u : String) (r s : lintingResult)
    (h : s ∈ storedResults l) : s ∈ storedResults (insertLinting l u r) := by
  induction l with
  | nil => simp [storedResults] at h
  | cons p rest ih =>
    obtain ⟨k, rs⟩ := p
    rw [storedResults_cons] at h
    simp only [insertLinting]
    split
    · rw [storedResults_cons]
      rcases List.mem_append.mp h with h₁ | h₂
      · apply List.mem_append_left
        split
        · exact h₁
        · exact List.mem_append_left _ h₁
      · exact List.mem_append_right _ h₂
    · rw [storedResults_cons]
      rcases List.mem_append.mp h with h₁ | h₂
      · exact List.mem_append_left _ h₁
      · exact List.mem_append_right _ (ih h₂)

/-- The inserted result is stored. -/
theorem self_mem_storedResults_insertLinting (l : Linter) (u : String) (r : lintingResult) :
    r ∈ storedResults (insertLinting l u r) := by
  induction l with
  | nil => simp [insertLinting, storedResults]
  | cons p rest ih =>
    obtain ⟨k, rs⟩ := p
    simp only [insertLinting]
    split
    · rw [storedResults_cons]
      apply List.mem_append_left
      split
      · assumption
      · exact List.mem_append_right _ (by simp)
    · rw [storedResults_cons]
      exact List.mem_append_right _ ih

/-- `addLinting` preserves every stored diagnostic. -/
theorem mem_storedResults_addLinting (l : Linter) (u : String) (v : linting)
    (s : lintingResult) (h : s ∈ storedResults l) : s ∈ storedResults (addLinting l u v) := by
  unfold addLinting
  split
  · exact h
  · exact mem_storedResults_insertLinting l u _ s h

/-- `handleLinting` preserves every stored diagnostic. -/
theorem mem_storedResults_handleLinting (l : Linter) (u : String) (v : linting)
    (s : lintingResult) (h : s ∈ storedResults l) : s ∈ storedResults (handleLinting l u v) := by
  unfold handleLinting
  split
  · exact mem_storedResults_addLinting l u v s h
  · exact h

/-- Recording a real error stores its diagnostic. -/
theorem self_mem_storedResults_addLinting (l : Linter) (u : String) (v : linting)
    (hv : ¬ v = nle) :
    (⟨u, v, criticalValue v⟩ : lintingResult) ∈ storedResults (addLinting l u v) := by
  unfold addLinting
  rw [if_neg hv]
  exact self_mem_storedResults_insertLinting l u _

set_option maxRecDepth 4000 in
/-- C7 amended: the boundary record is accepted, not rejected.  A record
whose single signature-bearing row has end-of-file relativity and a
blank-node offset marker (with non-empty offset text and normalizable
signature) passes the pre-flight check — the check never examines offsets —
and when the record's byte sequence is then built, the blank-node-offset
diagnostic `offWDE03` is recorded against the record, stored with
`Critical := false` (per the code's criticality switch). -/
theorem c7_boundary_accepted (c : Converter) (row : Row) (l : Linter)
    (hrel : row.relativityLabel = relativeEOF)
    (htype : row.offsetType = "bnode")
    (hoff : ¬ row.offset = "")
    (hsig : ¬ row.sig = "")
    (hparse : (c.parse row.sig (c.lookupEncoding row.encodingLabel)).2 = none) :
    preValidateSignatures c [tupleOfRow row] = true ∧
    (⟨row.uri, offWDE03, false⟩ : lintingResult) ∈ storedResults (newRecord c row true l).2 := by
  have hv : validateAndReturnRelativity relativeEOF = (relativeEOF, nle, none) := by decide
  rcases hpe : c.parse row.sig (c.lookupEncoding row.encodingLabel) with ⟨pv, perr⟩
  rw [hpe] at hparse
  have hperr : perr = none := hparse
  subst hperr
  have hoffv : validateAndReturnOffset row.offset row.offsetType = (0, offWDE03) := by
    rw [htype]
    unfold validateAndReturnOffset
    rw [if_neg hoff]
    simp
  constructor
  · simp [preValidateSignatures, tupleOfRow, hrel, hv, validateAndReturnSignature, hpe,
      show relativeEOF ≠ "" from by decide]
  · simp only [newRecord]
    rw [if_pos hsig, if_neg (by simp)]
    simp only [newByteSequence]
    apply mem_storedResults_handleLinting
    apply mem_storedResults_handleLinting
    rw [hoffv]
    simp only [handleLinting]
    rw [if_pos (by decide)]
    exact self_mem_storedResults_addLinting _ _ _ (by decide)

/-- C7 witness: the concrete boundary row `rowEOF` instantiates the amended
theorem. -/
theorem c7_boundary_accepted_witness :
    (rowEOF.relativityLabel = relativeEOF ∧ rowEOF.offsetType = "bnode" ∧
     ¬ rowEOF.offset = "" ∧ ¬ rowEOF.sig = "" ∧
     (hexConverter.parse rowEOF.sig (hexConverter.lookupEncoding rowEOF.encodingLabel)).2 = none) ∧
    preValidateSignatures hexConverter [tupleOfRow rowEOF] = true ∧
    (⟨rowEOF.uri, offWDE03, false⟩ : lintingResult) ∈
      storedResults (newRecord hexConverter rowEOF true []).2 :=
  ⟨⟨rfl, rfl, by decide, by decide, rfl⟩,
    c7_boundary_accepted hexConverter rowEOF [] rfl rfl (by decide) (by decide) rfl⟩

/-- One collection step keeps the accumulator duplicate-free and adds
exactly the row's tuple when the row belongs to the identifier and carries
signature text. -/
theorem preProcessStep_spec (id : String) (acc : List preProcessedSequence) (row : Row)
    (h : acc.Nodup) :
    (preProcessStep id acc row).Nodup ∧
    ∀ t, t ∈ preProcessStep id acc row ↔
      t ∈ acc ∨ (getID row.uri = id ∧ row.sig ≠ "" ∧ tupleOfRow row = t) := by
  unfold preProcessStep
  split
  case isTrue hid =>
    split
    case isTrue hsig =>
      rcases acc with _ | ⟨a, as⟩
      · -- empty accumulator: the special first-append path.
        refine ⟨by simp, fun t => ?_⟩
        simp [hid, hsig, eq_comm]
      · -- non-empty accumulator: plain insert-if-absent.
        have hlen : ¬ ((a :: as).length = 0) := by simp
        simp only [hlen, if_false, ite_false]
        split
        case isTrue hmem =>
          refine ⟨h, fun t => ?_⟩
          constructor
          · exact fun ht => Or.inl ht
          · rintro (ht | ⟨-, -, rfl⟩)
            · exact ht
            · exact hmem
        case isFalse hmem =>
          obtain ⟨ha, has⟩ := List.nodup_cons.mp h
          have h1 : ¬ a = tupleOfRow row := fun hh => hmem (by simp [hh])
          have h2 : tupleOfRow row ∉ as := fun hh => hmem (by simp [hh])
          refine ⟨?_, fun t => ?_⟩
          · simp [List.nodup_append, ha, has, h1, h2]
          · simp [hid, hsig, eq_comm, or_assoc]
    case isFalse hsig =>
      exact ⟨h, fun t => by simp [hsig]⟩
  case isFalse hid =>
    exact ⟨h, fun t => by simp [hid]⟩

/-- The collection fold, from any duplicate-free accumulator. -/
theorem preProcessList_go (id : String) (rows : List Row) :
    ∀ acc : List preProcessedSequence, acc.Nodup →
      (rows.foldl (preProcessStep id) acc).Nodup ∧
      ∀ t, t ∈ rows.foldl (preProcessStep id) acc ↔
        t ∈ acc ∨ ∃ row, row ∈ rows ∧ getID row.uri = id ∧ row.sig ≠ "" ∧ tupleOfRow row = t := by
  induction rows with
  | nil =>
    intro acc h
    exact ⟨h, fun t => by simp⟩
  | cons r rs ih =>
    intro acc h
    have hstep := preProcessStep_spec id acc r h
    have hrec := ih (preProcessStep id acc r) hstep.1
    refine ⟨hrec.1, fun t => ?_⟩
    rw [List.foldl_cons, hrec.2 t, hstep.2 t]
    constructor
    · rintro ((ht | hr) | ⟨row, hmem, hrest⟩)
      · exact Or.inl ht
      · exact Or.inr ⟨r, by simp, hr⟩
      · exact Or.inr ⟨row, by simp [hmem], hrest⟩
    · rintro (ht | ⟨row, hmem, hrest⟩)
      · exact Or.inl (Or.inl ht)
      · rcases List.mem_cons.mp hmem with rfl | hmem'
        · exact Or.inl (Or.inr hrest)
        · exact Or.inr ⟨row, hmem', hrest⟩

/-- C10: pre-flight input deduplication.  The tuple list handed to the
pre-flight check is duplicate-free and holds exactly the distinct raw
(signature, offset, encoding, relativity) tuples of the identifier's
signature-bearing rows — so repeated identical rows contribute one tuple to
the 2-row and more-than-2-row thresholds. -/
theorem c10_preflight_dedup (wdRecords : List Row) (id : String) :
    (preProcessList wdRecords id).Nodup ∧
    ∀ t, t ∈ preProcessList wdRecords id ↔
      ∃ row, row ∈ wdRecords ∧ getID row.uri = id ∧ row.sig ≠ "" ∧ tupleOfRow row = t := by
  have h := preProcessList_go id wdRecords [] List.nodup_nil
  refine ⟨h.1, fun t => ?_⟩
  rw [show preProcessList wdRecords id = wdRecords.foldl (preProcessStep id) [] from rfl,
    h.2 t]
  simp

/-- The counting fold of `countLintingErrors`, from any starting counts. -/
theorem countLintingErrors_foldl (l : Linter) :
    ∀ acc : Nat × Nat × Nat,
      l.foldl
        (fun counts p =>
          (counts.1 + 1,
           counts.2.1 + p.2.length,
           counts.2.2 + p.2.countP (fun res => decide (res.Value = heuWDE01) || decide (res.Value = heuWDE02))))
        acc =
      (acc.1 + l.length,
       acc.2.1 + (storedResults l).length,
       acc.2.2 + (storedResults l).countP
         (fun res => decide (res.Value = heuWDE01) || decide (res.Value = heuWDE02))) := by
  induction l with
  | nil => intro acc; simp [storedResults]
  | cons p rest ih =>
    intro acc
    obtain ⟨k, rs⟩ := p
    rw [List.foldl_cons, ih, storedResults_cons]
    simp only [List.countP_append, List.length_append, List.length_cons, Prod.mk.injEq]
    omega

/-- `countLintingErrors` returns the number of URI entries, the total number
of stored diagnostics, and the number of stored diagnostics carrying either
heuristic code. -/
theorem countLintingErrors_eq (l : Linter) :
    countLintingErrors l =
      (l.length,
       (storedResults l).length,
       (storedResults l).countP
         (fun res => decide (res.Value = heuWDE01) || decide (res.Value = heuWDE02))) := by
  have h := countLintingErrors_foldl l (0, 0, 0)
  simpa [countLintingErrors] using h

/-- Keys after an insert: unchanged when the URI is already a key, else the
URI is appended. -/
theorem insertLinting_keys (l : Linter) (u : String) (r : lintingResult) :
    (insertLinting l u r).map Prod.fst =
      if u ∈ l.map Prod.fst then l.map Prod.fst else l.map Prod.fst ++ [u] := by
  induction l with
  | nil => simp [insertLinting]
  | cons p rest ih =>
    obtain ⟨k, rs⟩ := p
    simp only [insertLinting]
    split
    case isTrue hk =>
      subst hk
      simp
    case isFalse hk =>
      have hk' : ¬ (u = k) := fun hh => hk hh.symm
      simp only [List.map_cons, ih]
      by_cases hmem : u ∈ rest.map Prod.fst
      · simp [hmem, hk']
      · simp [hmem, hk']

/-- Inserting a result whose URI is its key preserves well-formedness. -/
theorem WFLinter_insertLinting (l : Linter) (u : String) (r : lintingResult)
    (hr : r.URI = u) (h : WFLinter l) : WFLinter (insertLinting l u r) := by
  induction l with
  | nil =>
    refine ⟨by simp [insertLinting], ?_⟩
    intro p hp
    simp only [insertLinting, List.mem_singleton] at hp
    subst hp
    exact ⟨by simp, by simp, by simpa using hr⟩
  | cons q rest ih =>
    obtain ⟨k, rs⟩ := q
    obtain ⟨hkeys, hmem⟩ := h
    have hkeys₀ : (k :: rest.map Prod.fst).Nodup := by simpa using hkeys
    have hkeys' : (rest.map Prod.fst).Nodup := (List.nodup_cons.mp hkeys₀).2
    have hknotin : k ∉ rest.map Prod.fst := (List.nodup_cons.mp hkeys₀).1
    have hrest : WFLinter rest := ⟨hkeys', fun p hp => hmem p (List.mem_cons_of_mem _ hp)⟩
    obtain ⟨hne, hnd, huri⟩ := hmem (k, rs) (by simp)
    simp only [insertLinting]
    split
    case isTrue hk =>
      constructor
      · simpa using hkeys
      · intro p hp
        rcases List.mem_cons.mp hp with rfl | hp'
        · refine ⟨?_, ?_, ?_⟩
          · split
            case isTrue hin => exact hne
            case isFalse hin => simp
          · split
            case isTrue hin => exact hnd
            case isFalse hin => simp [List.nodup_append, hnd, hin]
          · intro x hx
            split at hx
            case isTrue hin => exact huri x hx
            case isFalse hin =>
              rcases List.mem_append.mp hx with hx' | hx'
              · exact huri x hx'
              · rw [List.mem_singleton] at hx'
                subst hx'
                rw [hr]
                exact hk.symm
        · exact hmem p (List.mem_cons_of_mem _ hp')
    case isFalse hk =>
      have hres := ih hrest
      constructor
      · simp only [List.map_cons]
        rw [List.nodup_cons]
        refine ⟨?_, hres.1⟩
        rw [insertLinting_keys]
        split
        · exact hknotin
        · simp only [List.mem_append, List.mem_singleton]
          rintro (hh | hh)
          · exact hknotin hh
          · exact hk hh
      · intro p hp
        rcases List.mem_cons.mp hp with rfl | hp'
        · exact hmem (k, rs) (by simp)
        · exact hres.2 p hp'

/-- `addLinting` preserves well-formedness of the ledger. -/
theorem WFLinter_addLinting (l : Linter) (u : String) (v : linting) (h : WFLinter l) :
    WFLinter (addLinting l u v) := by
  unfold addLinting
  split
  · exact h
  · exact WFLinter_insertLinting l u _ rfl h

/-- Every ledger the program can build is well-formed. -/
theorem WFLinter_runLinter (calls : List (String × linting)) : WFLinter (runLinter calls) := by
  suffices h : ∀ acc, WFLinter acc →
      WFLinter (calls.foldl (fun acc call => addLinting acc call.1 call.2) acc) by
    exact h [] ⟨List.nodup_nil, by simp⟩
  induction calls with
  | nil => exact fun acc h => h
  | cons c cs ih => exact fun acc h => ih _ (WFLinter_addLinting _ _ _ h)

/-- Membership in the stored diagnostics through the key entries. -/
theorem mem_storedResults_iff (l : Linter) (r : lintingResult) :
    r ∈ storedResults l ↔ ∃ q, q ∈ l ∧ r ∈ q.2 := by
  simp only [storedResults, List.mem_flatten, List.mem_map]
  constructor
  · rintro ⟨rs, ⟨q, hq, rfl⟩, hr⟩
    exact ⟨q, hq, hr⟩
  · rintro ⟨q, hq, hr⟩
    exact ⟨q.2, ⟨q, hq, rfl⟩, hr⟩

/-- In a well-formed ledger the stored diagnostics are pairwise distinct. -/
theorem storedResults_nodup (l : Linter) (h : WFLinter l) : (storedResults l).Nodup := by
  induction l with
  | nil => simp [storedResults]
  | cons p rest ih =>
    obtain ⟨k, rs⟩ := p
    obtain ⟨hkeys, hmem⟩ := h
    have hkeys₀ : (k :: rest.map Prod.fst).Nodup := by simpa using hkeys
    have hknotin : k ∉ rest.map Prod.fst := (List.nodup_cons.mp hkeys₀).1
    have hrest : WFLinter rest :=
      ⟨(List.nodup_cons.mp hkeys₀).2, fun q hq => hmem q (List.mem_cons_of_mem _ hq)⟩
    rw [storedResults_cons]
    refine List.Nodup.append (hmem (k, rs) (by simp)).2.1 (ih hrest) ?_
    intro x hx hx'
    obtain ⟨q, hq, hxq⟩ := (mem_storedResults_iff rest x).mp hx'
    have h1 : x.URI = k := (hmem (k, rs) (by simp)).2.2 x hx
    have h2 : x.URI = q.1 := (hmem q (List.mem_cons_of_mem _ hq)).2.2 x hxq
    exact hknotin (by rw [← h1, h2]; exact List.mem_map_of_mem Prod.fst hq)

/-- In a well-formed ledger the URIs appearing among the stored diagnostics
are exactly the keys. -/
theorem storedResults_uri_toFinset (l : Linter) (h : WFLinter l) :
    ((storedResults l).map lintingResult.URI).toFinset = (l.map Prod.fst).toFinset := by
  induction l with
  | nil => simp [storedResults]
  | cons p rest ih =>
    obtain ⟨k, rs⟩ := p
    obtain ⟨hkeys, hmem⟩ := h
    have hkeys₀ : (k :: rest.map Prod.fst).Nodup := by simpa using hkeys
    have hrest : WFLinter rest :=
      ⟨(List.nodup_cons.mp hkeys₀).2, fun q hq => hmem q (List.mem_cons_of_mem _ hq)⟩
    obtain ⟨hne, hnd, huri⟩ := hmem (k, rs) (by simp)
    have hconst : rs.map lintingResult.URI =
        List.replicate (rs.map lintingResult.URI).length k := by
      apply List.eq_replicate_of_mem
      intro b hb
      obtain ⟨x, hx, rfl⟩ := List.mem_map.mp hb
      exact huri x hx
    rw [storedResults_cons, List.map_append, List.toFinset_append, ih hrest, List.map_cons,
      List.toFinset_cons, hconst,
      List.toFinset_replicate_of_ne_zero (by simp [List.length_eq_zero, hne]),
      Finset.insert_eq]

/-- C8 amended: the summary counts.  For every ledger state the program can
reach, `countLintingErrors` returns the number of distinct URIs having at
least one stored diagnostic, the number of stored diagnostics (which are
pairwise distinct (uri, code) entries), and the number of stored diagnostics
whose code is either of the two heuristic codes `heuWDE01` (bad heuristic)
or `heuWDE02` (cannot process sequence) — not the bad-heuristic code
alone. -/
theorem c8_summary_counts (calls : List (String × linting)) :
    (storedResults (runLinter calls)).Nodup ∧
    countLintingErrors (runLinter calls) =
      (((storedResults (runLinter calls)).map lintingResult.URI).toFinset.card,
       (storedResults (runLinter calls)).length,
       (storedResults (runLinter calls)).countP
         (fun res => decide (res.Value = heuWDE01) || decide (res.Value = heuWDE02))) := by
  have hwf := WFLinter_runLinter calls
  refine ⟨storedResults_nodup _ hwf, ?_⟩
  rw [countLintingErrors_eq, storedResults_uri_toFinset _ hwf,
    List.toFinset_card_of_nodup hwf.1, List.length_map]

end Wdanalysis
